import Mathlib

/-!
Verification of `tools/find_unresolved_json.py`: a scanner that walks JSON
documents and reports single-key `{"Name": ...}` objects found under a
`Columns` or `Parameters` ancestor key.

The Python program is shallowly embedded: the parsed JSON document is an
inductive tree, the recursive `visit` function is translated as a pure
function returning the list of (path, joined-trail) pairs it would append to
the global `results` list, and the driving loop over discovered files is a
pure function over a list of file entries (path, basename, parse result).
-/

/-- A parsed JSON document as produced by Python's `json.load`: objects are
insertion-ordered key/value lists (Python dicts preserve insertion order),
arrays are lists, and leaves are strings, numbers, booleans or null.
Numbers are modelled as integers (the inputs of interest carry no floats;
float formatting is outside the model). -/
inductive Json where
  | str (s : String)
  | num (n : Int)
  | bool (b : Bool)
  | null
  | arr (elems : List Json)
  | obj (entries : List (String × Json))
deriving Repr

/-- One character of Python's `repr` for strings: escape the backslash, the
chosen quote character, and the common control characters. (Models the
Python builtin; exotic control characters are outside the model.) -/
def pyEscapeChar (quote : Char) (c : Char) : String :=
  if c = '\\' then "\\\\"
  else if c = quote then "\\" ++ String.singleton quote
  else if c = '\n' then "\\n"
  else if c = '\t' then "\\t"
  else if c = '\r' then "\\r"
  else String.singleton c

/-- Python's `repr` for strings: single quotes by default, double quotes when
the string contains a single quote but no double quote. -/
def pyReprStr (s : String) : String :=
  let quote :=
    if s.data.contains '\x27' && !(s.data.contains '\x22') then '\x22' else '\x27'
  String.singleton quote ++ String.join (s.data.map (pyEscapeChar quote)) ++
    String.singleton quote

mutual
/-- Python's `repr` on values decoded from JSON: `True`/`False`/`None` for
booleans and null, decimal for integers, quoted for strings, `[...]` for
lists and `{...}` for dicts with `, `-separated items. -/
def pyRepr : Json → String
  | .str s => pyReprStr s
  | .num n => toString n
  | .bool b => if b then "True" else "False"
  | .null => "None"
  | .arr xs => "[" ++ pyReprList xs ++ "]"
  | .obj es => "\x7b" ++ pyReprEntries es ++ "\x7d"

def pyReprList : List Json → String
  | [] => ""
  | [x] => pyRepr x
  | x :: rest => pyRepr x ++ ", " ++ pyReprList rest

def pyReprEntries : List (String × Json) → String
  | [] => ""
  | [(k, v)] => pyReprStr k ++ ": " ++ pyRepr v
  | (k, v) :: rest => pyReprStr k ++ ": " ++ pyRepr v ++ ", " ++ pyReprEntries rest
end

/-- Python's `str` on values decoded from JSON: the identity on strings,
`repr` on everything else. -/
def pyStr : Json → String
  | .str s => s
  | j => pyRepr j

/-- `node_dict.get('Name')` as seen by the `name is not None` test: Python's
`dict.get` returns `None` both when the key is absent and when the stored
value is JSON `null` (decoded to Python `None`), so the two cases collapse. -/
def nameValue (entries : List (String × Json)) : Option Json :=
  match entries.lookup "Name" with
  | some Json.null => none
  | some v => some v
  | none => none

/-- The match emitted at one object node (lines 17-21 of the source):
if `get('Name')` is not `None`, the dict has exactly one key, and some trail
segment equals `"Columns"` or `"Parameters"`, append
`(path, '/'.join(trail + [str(name)]))`. -/
def nodeMatch (entries : List (String × Json)) (trail : List String)
    (path : String) : List (String × String) :=
  match nameValue entries with
  | some v =>
    if entries.length = 1 ∧ ("Columns" ∈ trail ∨ "Parameters" ∈ trail) then
      [(path, String.intercalate "/" (trail ++ [pyStr v]))]
    else []
  | none => []

mutual
/-- The recursive `visit(node, trail, path)` of the source, returning the
matches it appends to `results` in append order: an object emits its own
match (if any) and then recurses into each key/value pair in insertion order
with `trail + [key]`; a list recurses into each element with `trail +
[str(idx)]`; leaves do nothing. (Dict keys decoded from JSON are already
strings, so the source's `str(key)` is the identity.) -/
def visit : Json → List String → String → List (String × String)
  | .obj entries, trail, path =>
      nodeMatch entries trail path ++ visitEntries entries trail path
  | .arr elems, trail, path => visitElems elems 0 trail path
  | _, _, _ => []

/-- The `for key, value in node_dict.items()` loop of `visit`. -/
def visitEntries : List (String × Json) → List String → String →
    List (String × String)
  | [], _, _ => []
  | (k, v) :: rest, trail, path =>
      visit v (trail ++ [k]) path ++ visitEntries rest trail path

/-- The `for idx, item in enumerate(node_list)` loop of `visit`; the first
argument of the index counter is `0` at the top-level call. -/
def visitElems : List Json → Nat → List String → String →
    List (String × String)
  | [], _, _, _ => []
  | x :: rest, i, trail, path =>
      visit x (trail ++ [toString i]) path ++ visitElems rest (i + 1) trail path
end

/-- `str(file).replace('\\', '/')` of the source: the pattern is the single
character backslash, so the replacement is character-wise. -/
def normalizeSep (s : String) : String :=
  ⟨s.data.map fun c => if c = '\\' then '/' else c⟩

/-- The filter realized by `BASE_DIR.rglob('*.json')`: the file's basename
ends with `.json`. -/
def hasJsonExt (name : String) : Bool :=
  ".json".data.isSuffixOf name.data

/-- One file as the main loop sees it: `path` is `str(file)` with the host's
native separators, `name` is `file.name` (the basename), and `content` is
the outcome of `json.load` (`none` when decoding raised). -/
structure FileEntry where
  path : String
  name : String
  content : Option Json

/-- The body of the main loop for one discovered file (lines 32-39): skip
`index.json`, skip files whose decode failed, otherwise visit the document
with an empty trail and the path with backslashes replaced by slashes. -/
def processFile (f : FileEntry) : List (String × String) :=
  if f.name = "index.json" then []
  else
    match f.content with
    | none => []
    | some data => visit data [] (normalizeSep f.path)

/-- The main loop over the files yielded by `BASE_DIR.rglob('*.json')`, in
discovery order, concatenating each file's appended matches. -/
def scanFiles : List FileEntry → List (String × String)
  | [] => []
  | f :: rest => processFile f ++ scanFiles rest

/-- The whole scan (lines 30-39): if the base directory does not exist the
loop never runs; otherwise `rglob('*.json')` yields exactly the files whose
basename ends in `.json`, and each is processed in turn.  `allFiles` is the
recursive listing of the directory tree in discovery order. -/
def runScan (rootExists : Bool) (allFiles : List FileEntry) :
    List (String × String) :=
  if rootExists then
    scanFiles (allFiles.filter fun f => hasJsonExt f.name)
  else []

/-- The report (lines 41-44): one `path: location` line per accumulated
result, in order, then `Total: <count>`. -/
def report (results : List (String × String)) : List String :=
  (results.map fun r => r.1 ++ ": " ++ r.2) ++ ["Total: " ++ toString results.length]

/-- Scenario A input: `{"Columns":[{"Name":"id"}]}`. -/
def scenarioA : Json :=
  Json.obj [("Columns", Json.arr [Json.obj [("Name", Json.str "id")]])]

/-- Scenario used against C3: `{"Columns":[{"Name":null}]}`. -/
def nullDoc : Json :=
  Json.obj [("Columns", Json.arr [Json.obj [("Name", Json.null)]])]

/-- A valid file containing exactly one match, with a native backslash in its
path. -/
def goodFile : FileEntry :=
  ⟨"debug/.xtraq\\a.json", "a.json", some scenarioA⟩

/-- A file whose content failed to decode as JSON. -/
def badFile : FileEntry :=
  ⟨"debug/.xtraq\\bad.json", "bad.json", none⟩

/-- An `index.json` file that contains matching shapes. -/
def indexFile : FileEntry :=
  ⟨"debug/.xtraq\\index.json", "index.json", some scenarioA⟩

/-- Helper: the main loop distributes over concatenation of file lists. -/
theorem scanFiles_append (l₁ l₂ : List FileEntry) :
    scanFiles (l₁ ++ l₂) = scanFiles l₁ ++ scanFiles l₂ := by
  induction l₁ with
  | nil => rfl
  | cons f rest ih => simp [scanFiles, ih]

/-- Helper: a single-key `{"Name": v}` object with `v` non-null emits, under a
qualifying trail, exactly the match whose last segment is `str(v)`. -/
theorem nodeMatch_singleton (v : Json) (trail : List String) (path : String)
    (hv : v ≠ Json.null) (ht : "Columns" ∈ trail ∨ "Parameters" ∈ trail) :
    nodeMatch [("Name", v)] trail path =
      [(path, String.intercalate "/" (trail ++ [pyStr v]))] := by
  cases v <;> simp_all [nodeMatch, nameValue, List.lookup]

/-- Helper: at most one match is emitted per object node. -/
theorem nodeMatch_length_le (entries : List (String × Json))
    (trail : List String) (path : String) :
    (nodeMatch entries trail path).length ≤ 1 := by
  unfold nodeMatch
  cases nameValue entries with
  | none => simp
  | some v =>
    by_cases h : entries.length = 1 ∧ ("Columns" ∈ trail ∨ "Parameters" ∈ trail) <;>
      simp [h]

/-- Helper: `nameValue` returns `some v` exactly when the dict stores a
non-null value under `Name`. -/
theorem nameValue_eq_some (entries : List (String × Json)) (v : Json) :
    nameValue entries = some v ↔
      entries.lookup "Name" = some v ∧ v ≠ Json.null := by
  unfold nameValue
  cases h : entries.lookup "Name" with
  | none => simp
  | some w => cases w <;> cases v <;> simp_all

/-- Helper: a dict with two or more keys never produces a node match. -/
theorem nodeMatch_long (e₁ e₂ : String × Json) (rest : List (String × Json))
    (trail : List String) (path : String) :
    nodeMatch (e₁ :: e₂ :: rest) trail path = [] := by
  unfold nodeMatch
  cases nameValue (e₁ :: e₂ :: rest) with
  | none => rfl
  | some v => simp

/-- C1: a match is emitted at an object node iff the object is exactly
`{"Name": v}` with `v` present (not JSON null — `dict.get` collapses a null
value with an absent key) and the trail contains a segment equal to
`Columns` or to `Parameters`. -/
theorem claim1_match_iff (entries : List (String × Json)) (trail : List String)
    (path : String) :
    nodeMatch entries trail path ≠ [] ↔
      ∃ v, entries = [("Name", v)] ∧ v ≠ Json.null ∧
        ("Columns" ∈ trail ∨ "Parameters" ∈ trail) := by
  cases entries with
  | nil => simp [nodeMatch, nameValue, List.lookup]
  | cons e rest =>
    obtain ⟨k, w⟩ := e
    cases rest with
    | cons e₂ rest₂ =>
      rw [nodeMatch_long]
      simp
    | nil =>
      by_cases hk : k = "Name"
      · subst hk
        cases hw : w with
        | null => simp [nodeMatch, nameValue, List.lookup]
        | _ =>
          simp only [nodeMatch, nameValue, List.lookup]
          simp [List.length]
          tauto
      · simp only [nodeMatch, nameValue, List.lookup]
        have hbeq : ("Name" == k) = false := by
          simp [hk]
          intro h
          exact hk h.symm
        simp [hbeq, hk]

/-- C2 (counterexample): on `{"Columns":[{"Name":"id"}]}` the single emitted
match has trail string `Columns/0/id`, which differs from the claimed
`Columns/0/Name/id`: the joined trail is the matched object's ancestor trail
plus the stringified value, without a `Name` segment. -/
theorem claim2_counterexample :
    visit scenarioA [] "debug/.xtraq/a.json" =
      [("debug/.xtraq/a.json", "Columns/0/id")] ∧
    ("Columns/0/id" : String) ≠ "Columns/0/Name/id" := by
  refine ⟨rfl, ?_⟩
  decide

/-- C2 (amended): scanning the parsed document `{"Columns":[{"Name":"id"}]}`
with an empty initial trail emits exactly one match, whose reported trail
string is `Columns/0/id`. -/
theorem claim2_scenarioA (path : String) :
    visit scenarioA [] path = [(path, "Columns/0/id")] := rfl

/-- C3 (counterexample): `{"Name": null}` under a `Columns` trail is NOT
reported — the whole scan of `{"Columns":[{"Name":null}]}` emits no match,
and the node-level test rejects the null value directly. -/
theorem claim3_counterexample :
    visit nullDoc [] "f" = [] ∧
    nodeMatch [("Name", Json.null)] ["Columns"] "f" = [] := ⟨rfl, rfl⟩

/-- C3 (amended): for every single-key `{"Name": v}` object under a
qualifying trail, a non-null `v` of any kind (string, number, boolean) is
coerced to its string representation and appended as the final trail
segment, while `{"Name": null}` never matches, because `dict.get` returns
`None` for a null value just as for an absent key. -/
theorem claim3_stringify (v : Json) (trail : List String) (path : String)
    (hv : v ≠ Json.null) (ht : "Columns" ∈ trail ∨ "Parameters" ∈ trail) :
    nodeMatch [("Name", v)] trail path =
      [(path, String.intercalate "/" (trail ++ [pyStr v]))] ∧
    nodeMatch [("Name", Json.null)] trail path = [] := by
  refine ⟨nodeMatch_singleton v trail path hv ht, ?_⟩
  simp [nodeMatch, nameValue, List.lookup]

/-- C3 witness: a numeric `Name` value stringifies and matches. -/
theorem claim3_stringify_witness :
    nodeMatch [("Name", Json.num 7)] ["Columns"] "f" = [("f", "Columns/7")] ∧
    nodeMatch [("Name", Json.null)] ["Columns"] "f" = [] :=
  claim3_stringify (Json.num 7) ["Columns"] "f"
    (fun h => Json.noConfusion h) (Or.inl (List.mem_singleton.mpr rfl))

/-- C4: a file whose content fails to decode contributes no matches, and the
run continues over the remaining files unchanged; concretely, one
unparseable file next to one valid file with one match reports exactly one
match and no error line. -/
theorem claim4_decode_failure (f : FileEntry) (xs ys : List FileEntry)
    (hf : f.content = none) :
    processFile f = [] ∧
    runScan true (xs ++ f :: ys) = runScan true (xs ++ ys) ∧
    report (runScan true [badFile, goodFile]) =
      ["debug/.xtraq/a.json: Columns/0/id", "Total: 1"] := by
  have hpf : processFile f = [] := by
    unfold processFile
    rw [hf]
    by_cases h : f.name = "index.json" <;> simp [h]
  refine ⟨hpf, ?_, rfl⟩
  unfold runScan
  simp only [if_pos]
  rw [List.filter_append, List.filter_append, List.filter_cons]
  by_cases h : hasJsonExt f.name = true
  · simp only [h, if_pos]
    rw [scanFiles_append, scanFiles_append]
    simp [scanFiles, hpf]
  · simp [h]

/-- C4 witness: the decode-failure theorem at the concrete bad file. -/
theorem claim4_decode_failure_witness :
    processFile badFile = [] ∧
    runScan true ([] ++ badFile :: [goodFile]) = runScan true ([] ++ [goodFile]) ∧
    report (runScan true [badFile, goodFile]) =
      ["debug/.xtraq/a.json: Columns/0/id", "Total: 1"] :=
  claim4_decode_failure badFile [] [goodFile] rfl

mutual
/-- The number of nodes of a document tree (objects and arrays count
themselves plus their descendants; leaves count one). -/
def jsize : Json → Nat
  | .obj es => 1 + esize es
  | .arr xs => 1 + lsize xs
  | _ => 1

def esize : List (String × Json) → Nat
  | [] => 0
  | (_, v) :: rest => jsize v + esize rest

def lsize : List Json → Nat
  | [] => 0
  | x :: rest => jsize x + lsize rest
end

/-- A leaf is any node that is neither a dict nor a list: the `visit`
dispatch falls through both `isinstance` checks and stops. -/
def isLeaf : Json → Bool
  | .obj _ => false
  | .arr _ => false
  | _ => true

mutual
/-- The scan of any tree yields at most one match per node. -/
theorem visit_length_le : ∀ (j : Json) (t : List String) (p : String),
    (visit j t p).length ≤ jsize j
  | .obj es, t, p => by
      simp only [visit, jsize, List.length_append]
      have h1 := nodeMatch_length_le es t p
      have h2 := visitEntries_length_le es t p
      omega
  | .arr xs, t, p => by
      simp only [visit, jsize]
      have h := visitElems_length_le xs 0 t p
      omega
  | .str s, t, p => by simp [visit, jsize]
  | .num n, t, p => by simp [visit, jsize]
  | .bool b, t, p => by simp [visit, jsize]
  | .null, t, p => by simp [visit, jsize]

theorem visitEntries_length_le :
    ∀ (es : List (String × Json)) (t : List String) (p : String),
    (visitEntries es t p).length ≤ esize es
  | [], _, _ => by simp [visitEntries, esize]
  | (k, v) :: rest, t, p => by
      simp only [visitEntries, esize, List.length_append]
      have h1 := visit_length_le v (t ++ [k]) p
      have h2 := visitEntries_length_le rest t p
      omega

theorem visitElems_length_le :
    ∀ (xs : List Json) (i : Nat) (t : List String) (p : String),
    (visitElems xs i t p).length ≤ lsize xs
  | [], _, _, _ => by simp [visitElems, lsize]
  | x :: rest, i, t, p => by
      simp only [visitElems, lsize, List.length_append]
      have h1 := visit_length_le x (t ++ [toString i]) p
      have h2 := visitElems_length_le rest (i + 1) t p
      omega
end

/-- C5: the scan is a function of the directory contents alone — equal
snapshots give the identical ordered report — and traversal is in fixed
order: each object descends into its key/value pairs in stored (parse)
order, each list into its elements in index order. -/
theorem claim5_deterministic (rootExists : Bool) (fs fs' : List FileEntry)
    (k : String) (v : Json) (es : List (String × Json)) (x : Json)
    (xs : List Json) (i : Nat) (trail : List String) (path : String)
    (h : fs = fs') :
    report (runScan rootExists fs) = report (runScan rootExists fs') ∧
    visitEntries ((k, v) :: es) trail path =
      visit v (trail ++ [k]) path ++ visitEntries es trail path ∧
    visitElems (x :: xs) i trail path =
      visit x (trail ++ [toString i]) path ++ visitElems xs (i + 1) trail path := by
  subst h
  exact ⟨rfl, rfl, rfl⟩

/-- C5 witness: the determinism theorem at a concrete snapshot. -/
theorem claim5_deterministic_witness :
    report (runScan true [goodFile]) = report (runScan true [goodFile]) ∧
    visitEntries [("Name", Json.str "id")] ["Columns", "0"] "f" =
      visit (Json.str "id") (["Columns", "0"] ++ ["Name"]) "f" ++
        visitEntries [] ["Columns", "0"] "f" ∧
    visitElems [Json.null] 0 [] "f" =
      visit Json.null ([] ++ [toString 0]) "f" ++ visitElems [] (0 + 1) [] "f" :=
  claim5_deterministic true [goodFile] [goodFile] "Name" (Json.str "id") []
    Json.null [] 0 ["Columns", "0"] "f" rfl

/-- C6: the Scanner is total on every finite document tree: it is a Lean
function (hence terminating, with no fallible operation), leaves are a stop
condition, and the number of emitted matches is bounded by the node count of
the tree. -/
theorem claim6_total (j : Json) (t : List String) (p : String) :
    (isLeaf j = true → visit j t p = []) ∧ (visit j t p).length ≤ jsize j := by
  constructor
  · intro h
    cases j with
    | obj es => simp [isLeaf] at h
    | arr xs => simp [isLeaf] at h
    | str s => rfl
    | num n => rfl
    | bool b => rfl
    | null => rfl
  · exact visit_length_le j t p

/-- C6 witness: totality at a concrete leaf, with the stop condition
discharged. -/
theorem claim6_total_witness :
    visit (Json.str "x") [] "f" = [] ∧
    (visit (Json.str "x") [] "f").length ≤ jsize (Json.str "x") :=
  ⟨(claim6_total (Json.str "x") [] "f").1 rfl,
   (claim6_total (Json.str "x") [] "f").2⟩

/-- Helper: the object loop distributes over list append. -/
theorem visitEntries_append (es₁ es₂ : List (String × Json))
    (t : List String) (p : String) :
    visitEntries (es₁ ++ es₂) t p =
      visitEntries es₁ t p ++ visitEntries es₂ t p := by
  induction es₁ with
  | nil => rfl
  | cons e rest ih =>
    obtain ⟨k, v⟩ := e
    simp [visitEntries, ih]

/-- Helper: the sequence loop distributes over list append, shifting the
index counter by the length of the first part. -/
theorem visitElems_append (xs₁ xs₂ : List Json) (i : Nat)
    (t : List String) (p : String) :
    visitElems (xs₁ ++ xs₂) i t p =
      visitElems xs₁ i t p ++ visitElems xs₂ (i + xs₁.length) t p := by
  induction xs₁ generalizing i with
  | nil => rfl
  | cons x rest ih =>
    simp only [List.cons_append, visitElems, List.length_cons, List.append_eq]
    rw [ih (i + 1)]
    have h : i + (rest.length + 1) = i + 1 + rest.length := by omega
    rw [h, List.append_assoc]

/-- C7: the trail is never mutated: within an object or a sequence, the
contribution of each child is computed from the parent's trail plus exactly
one fresh segment, unchanged by whatever siblings precede or follow it, and
the later siblings still receive the parent's original trail. -/
theorem claim7_frame (es₁ es₂ : List (String × Json)) (k : String) (v : Json)
    (xs₁ xs₂ : List Json) (x : Json) (i : Nat)
    (trail : List String) (path : String) :
    visitEntries (es₁ ++ (k, v) :: es₂) trail path =
      visitEntries es₁ trail path ++ visit v (trail ++ [k]) path ++
        visitEntries es₂ trail path ∧
    visitElems (xs₁ ++ x :: xs₂) i trail path =
      visitElems xs₁ i trail path ++
        visit x (trail ++ [toString (i + xs₁.length)]) path ++
        visitElems xs₂ (i + xs₁.length + 1) trail path := by
  constructor
  · rw [visitEntries_append]
    simp [visitEntries, List.append_assoc]
  · rw [visitElems_append]
    simp [visitElems, List.append_assoc]

/-- C8: when the base directory does not exist the loop body never runs:
zero matches are accumulated and the report is the single line `Total: 0`,
with no failure. -/
theorem claim8_missing_root (files : List FileEntry) :
    runScan false files = [] ∧
    report (runScan false files) = ["Total: 0"] := by
  have h : runScan false files = [] := rfl
  rw [h]
  exact ⟨rfl, rfl⟩

/-- Helper: a node-level match carries the path it was called with. -/
theorem nodeMatch_path (es : List (String × Json)) (t : List String)
    (p : String) (m : String × String) (hm : m ∈ nodeMatch es t p) :
    m.1 = p := by
  unfold nodeMatch at hm
  cases hn : nameValue es with
  | none => rw [hn] at hm; simp at hm
  | some v =>
    rw [hn] at hm
    have hm' : m ∈ (if es.length = 1 ∧ ("Columns" ∈ t ∨ "Parameters" ∈ t)
        then [(p, String.intercalate "/" (t ++ [pyStr v]))] else []) := hm
    by_cases h : es.length = 1 ∧ ("Columns" ∈ t ∨ "Parameters" ∈ t)
    · rw [if_pos h] at hm'
      rw [List.mem_singleton] at hm'
      rw [hm']
    · rw [if_neg h] at hm'
      simp at hm'

mutual
/-- Every match emitted anywhere in a subtree carries the file identifier
the visit was called with, unchanged. -/
theorem visit_path : ∀ (j : Json) (t : List String) (p : String)
    (m : String × String), m ∈ visit j t p → m.1 = p
  | .obj es, t, p, m => by
      simp only [visit, List.mem_append]
      rintro (h | h)
      · exact nodeMatch_path es t p m h
      · exact visitEntries_path es t p m h
  | .arr xs, t, p, m => by
      simp only [visit]
      exact visitElems_path xs 0 t p m
  | .str s, t, p, m => by simp [visit]
  | .num n, t, p, m => by simp [visit]
  | .bool b, t, p, m => by simp [visit]
  | .null, t, p, m => by simp [visit]

theorem visitEntries_path : ∀ (es : List (String × Json)) (t : List String)
    (p : String) (m : String × String), m ∈ visitEntries es t p → m.1 = p
  | [], _, _, _ => by simp [visitEntries]
  | (k, v) :: rest, t, p, m => by
      simp only [visitEntries, List.mem_append]
      rintro (h | h)
      · exact visit_path v (t ++ [k]) p m h
      · exact visitEntries_path rest t p m h

theorem visitElems_path : ∀ (xs : List Json) (i : Nat) (t : List String)
    (p : String) (m : String × String), m ∈ visitElems xs i t p → m.1 = p
  | [], _, _, _, _ => by simp [visitElems]
  | x :: rest, i, t, p, m => by
      simp only [visitElems, List.mem_append]
      rintro (h | h)
      · exact visit_path x (t ++ [toString i]) p m h
      · exact visitElems_path rest (i + 1) t p m h
end

/-- C9: a file without the `.json` extension, or named `index.json`,
contributes nothing to the run even if its content holds matching shapes,
and the path attached to any emitted match is the file's path with every
backslash replaced by a forward slash. -/
theorem claim9_enumeration (xs ys : List FileEntry) (f g : FileEntry)
    (m : String × String)
    (hf : hasJsonExt f.name = false ∨ f.name = "index.json")
    (hm : m ∈ processFile g) :
    runScan true (xs ++ f :: ys) = runScan true (xs ++ ys) ∧
    m.1 = normalizeSep g.path := by
  constructor
  · unfold runScan
    simp only [if_pos]
    rw [List.filter_append, List.filter_append, List.filter_cons]
    by_cases h : hasJsonExt f.name = true
    · have hidx : f.name = "index.json" := by
        rcases hf with hf | hf
        · rw [h] at hf
          exact absurd hf (by simp)
        · exact hf
      simp only [h, if_pos]
      rw [scanFiles_append, scanFiles_append]
      have hpf : processFile f = [] := by
        unfold processFile
        rw [hidx]
        simp
      simp [scanFiles, hpf]
    · simp [h]
  · unfold processFile at hm
    by_cases hidx : g.name = "index.json"
    · simp [hidx] at hm
    · simp only [hidx, if_neg] at hm
      cases hc : g.content with
      | none => rw [hc] at hm; simp at hm
      | some data =>
        rw [hc] at hm
        exact visit_path data [] (normalizeSep g.path) m hm

/-- C9 witness: an `index.json` file full of matching shapes is skipped, and
the good file's match path is its slash-normalized path. -/
theorem claim9_enumeration_witness :
    runScan true ([] ++ indexFile :: [goodFile]) = runScan true ([] ++ [goodFile]) ∧
    ("debug/.xtraq/a.json", "Columns/0/id").1 = normalizeSep goodFile.path :=
  claim9_enumeration [] [goodFile] indexFile goodFile
    ("debug/.xtraq/a.json", "Columns/0/id") (Or.inr rfl)
    (List.mem_singleton.mpr rfl)

/-- C10: a single-key `{"Name": v}` object whose value is a container (dict
or list) under a qualifying trail still matches, with Python's string
representation of the container as the final trail segment; concretely,
`str({'a': 1})` is the text `{'a': 1}`. -/
theorem claim10_container (es : List (String × Json)) (xs : List Json)
    (trail : List String) (path : String)
    (ht : "Columns" ∈ trail ∨ "Parameters" ∈ trail) :
    nodeMatch [("Name", Json.obj es)] trail path =
      [(path, String.intercalate "/" (trail ++ [pyStr (Json.obj es)]))] ∧
    nodeMatch [("Name", Json.arr xs)] trail path =
      [(path, String.intercalate "/" (trail ++ [pyStr (Json.arr xs)]))] ∧
    pyStr (Json.obj [("a", Json.num 1)]) = "\x7b\x27a\x27: 1\x7d" :=
  ⟨nodeMatch_singleton (Json.obj es) trail path (fun h => Json.noConfusion h) ht,
   nodeMatch_singleton (Json.arr xs) trail path (fun h => Json.noConfusion h) ht,
   rfl⟩

/-- C10 witness: `{"Name": {"a": 1}}` and `{"Name": []}` under `Parameters`
both match, the former ending in the segment `{'a': 1}`. -/
theorem claim10_container_witness :
    nodeMatch [("Name", Json.obj [("a", Json.num 1)])] ["Parameters"] "f" =
      [("f", String.intercalate "/" (["Parameters"] ++
        [pyStr (Json.obj [("a", Json.num 1)])]))] ∧
    nodeMatch [("Name", Json.arr [])] ["Parameters"] "f" =
      [("f", String.intercalate "/" (["Parameters"] ++ [pyStr (Json.arr [])]))] ∧
    pyStr (Json.obj [("a", Json.num 1)]) = "\x7b\x27a\x27: 1\x7d" :=
  claim10_container [("a", Json.num 1)] [] ["Parameters"] "f"
    (Or.inr (List.mem_singleton.mpr rfl))
